import Mathlib

/-!
# SCI virtual machine registers (`engines/sci/engine/vm_types.h`)

A shallow embedding of `Sci::reg_t`, the (segment, offset) register of the SCI
interpreter, and of its two version-dependent encodings of the offset.

Conventions of the embedding:

* `uint16` and `uint32` values are natural numbers; every narrowing conversion
  of the C++ code is written as an explicit `% 65536` or `% 4294967296`.
* A register is well formed (`reg_t.wf`) when both of its stored fields fit in
  the 16 bits the C++ struct gives them.
* `getSciVersion()` reads a global of the engine; here the active version is the
  first argument `ver` of every operation that consults it.
-/

namespace Sci

/-! ## Constants -/

/-- The segment id of a register that was never written (`kUninitializedSegment`). -/
def kUninitializedSegment : Nat := 0x1FFF

/-- The mask of the segment id bits that `PRINT_REG` shows (`kSegmentMask`). -/
def kSegmentMask : Nat := 0x1FFF

/-- The declared mask of an offset (`kOffsetMask`), 19 bits wide. -/
def kOffsetMask : Nat := 0x7FFFF

/-- Modelled from the spec: the enumeration `SciVersion` of `sci/version.h` is not
among the sources. The spec only says that a version flag selects the classic or
the extended encoding; versions are modelled as ordinals and `SCI_VERSION_3` is the
first version that uses the extended encoding. -/
def SCI_VERSION_3 : Nat := 13

/-! ## The register -/

/-- The register `reg_t`: the two stored fields, `SegmentId _segment` and
`uint16 _offset`. -/
structure reg_t where
  /-- The stored segment field (`uint16`). -/
  _segment : Nat
  /-- The stored offset field (`uint16`). -/
  _offset : Nat
deriving DecidableEq, Repr

/-- Both stored fields fit in 16 bits. -/
def reg_t.wf (r : reg_t) : Prop := r._segment < 65536 ∧ r._offset < 65536

instance (r : reg_t) : Decidable r.wf := by
  unfold reg_t.wf
  exact inferInstance

/-- The member `reg_t::getOffset`. In the extended branch the operands are promoted
to `int`, and the result is converted to the `uint32` return type. -/
def getOffset (ver : Nat) (r : reg_t) : Nat :=
  if ver < SCI_VERSION_3 then
    r._offset
  else
    (((r._segment &&& 0xC000) <<< 2) ||| r._offset) % 4294967296

/-- The member `reg_t::setOffset`, returning the updated register. Every assignment
to a field narrows the assigned value to `uint16`. -/
def setOffset (ver : Nat) (r : reg_t) (offset : Nat) : reg_t :=
  if ver < SCI_VERSION_3 then
    { r with _offset := offset % 65536 }
  else
    { _offset := (offset &&& 0xFFFF) % 65536,
      _segment := (((offset &&& 0x30000) >>> 2) ||| (r._segment &&& 0x3FFF)) % 65536 }

/-- The member `reg_t::incOffset`: the `int32` argument is converted to `uint32`
and the sum wraps modulo `2 ^ 32`. -/
def incOffset (ver : Nat) (r : reg_t) (offset : Int) : reg_t :=
  setOffset ver r (((getOffset ver r : Int) + offset) % 4294967296).toNat

/-- Modelled from the spec: `reg_t::getSegment` is declared in the header and
defined in a file that is not among the sources. By the spec, the classic encoding
keeps the segment in the stored field, and under the extended encoding `getSegment`
masks off the two borrowed bits (bits 14 and 15) before returning. -/
def getSegment (ver : Nat) (r : reg_t) : Nat :=
  if ver < SCI_VERSION_3 then
    r._segment
  else
    r._segment &&& 0x3FFF

/-- The member `reg_t::isNull`. -/
def isNull (ver : Nat) (r : reg_t) : Bool :=
  (getOffset ver r ||| getSegment ver r) == 0

/-- The member `reg_t::toUint16`. -/
def toUint16 (ver : Nat) (r : reg_t) : Nat :=
  getOffset ver r % 65536

/-- The member `reg_t::toSint16`: the low 16 bits read as a two's-complement
number. -/
def toSint16 (ver : Nat) (r : reg_t) : Int :=
  if getOffset ver r % 65536 < 32768 then
    (getOffset ver r % 65536 : Nat)
  else
    (getOffset ver r % 65536 : Nat) - 65536

/-- The member `reg_t::isNumber`. -/
def isNumber (ver : Nat) (r : reg_t) : Bool :=
  getSegment ver r == 0

/-- The member `reg_t::isPointer`. -/
def isPointer (ver : Nat) (r : reg_t) : Bool :=
  getSegment ver r != 0 && getSegment ver r != kUninitializedSegment

/-- The member `reg_t::isInitialized`. -/
def isInitialized (ver : Nat) (r : reg_t) : Bool :=
  getSegment ver r != kUninitializedSegment

/-- The member `reg_t::operator==`. -/
def operator_eq (ver : Nat) (a x : reg_t) : Bool :=
  getOffset ver a == getOffset ver x && getSegment ver a == getSegment ver x

/-- The member `reg_t::operator!=`. -/
def operator_ne (ver : Nat) (a x : reg_t) : Bool :=
  getOffset ver a != getOffset ver x || getSegment ver a != getSegment ver x

/-- Modelled from the spec: `reg_t::init` is declared in the header and defined in a
file that is not among the sources. By the spec it constructs the register for
(segment, offset) without validation: the segment is stored in the segment field
and the offset is written through `setOffset`. -/
def init (ver : Nat) (segment offset : Nat) : reg_t :=
  setOffset ver { _segment := segment % 65536, _offset := 0 } offset

/-- The function `make_reg`: a register from a segment id and a 16-bit offset. -/
def make_reg (ver : Nat) (segment offset : Nat) : reg_t :=
  init ver (segment % 65536) (offset % 65536)

/-- The function `make_reg32`: a register from a segment id and a 32-bit offset. -/
def make_reg32 (ver : Nat) (segment offset : Nat) : reg_t :=
  init ver (segment % 65536) (offset % 4294967296)

/-! ## Errors, services and the operations defined outside the header -/

/-- Modelled from the spec: the C++ code has no error values (its failures go
through a call outside the header); the spec names four error kinds that propagate
synchronously to the caller. -/
inductive Error where
  | TypeMismatch
  | IncompatibleComparison
  | DivisionByZero
  | UninitializedRead
deriving DecidableEq, Repr

/-- Modelled from the spec: the operation kind that, with the calling script, keys
the workaround lookup. -/
inductive OperationKind where
  | comparison
  | addition
  | requireUnsigned
  | requireSigned
deriving DecidableEq, Repr

/-- Modelled from the spec: the external collaborators consulted by comparison and
arithmetic, none of which has a body among the sources.
`lookup context kind left right` is the workaround service, read-only and keyed by
the calling script and the operation kind.
`sci32Comparison left right` is the later-version specialized comparison, declared
in the header only under `ENABLE_SCI32`; by the spec it is tried, when present,
before falling back to the workaround rule, so it yields a verdict or `none` (the
path is not present, does not apply, or does not decide the pair).
`pointerComparisonWithInteger left right` is the predicate declared in the header
beside `cmp`; the spec does not mention it and its body is absent, so it is a
parameter. -/
structure Services where
  /-- The identity of the calling script. -/
  context : Nat
  /-- The workaround service. -/
  lookup : Nat → OperationKind → reg_t → reg_t → Option reg_t
  /-- The later-version specialized comparison path: a verdict, or `none`. -/
  sci32Comparison : reg_t → reg_t → Option Int
  /-- The predicate `reg_t::pointerComparisonWithInteger` of the header. -/
  pointerComparisonWithInteger : reg_t → reg_t → Bool

/-- Modelled from the spec: the sentinel `NULL_REG` is declared `extern` in the
header; by the spec it is segment 0, offset 0. -/
def NULL_REG : reg_t := { _segment := 0, _offset := 0 }

/-- Modelled from the spec: `reg_t::lookForWorkaround` is declared in the header and
defined elsewhere. By the spec the workaround service is queried before an error is
surfaced: a verdict is used, and without one the error `failure` is reported. -/
def lookForWorkaround (env : Services) (kind : OperationKind) (failure : Error)
    (a right : reg_t) : Except Error reg_t :=
  match env.lookup env.context kind a right with
  | some verdict => Except.ok verdict
  | none => Except.error failure

/-- Modelled from the spec: `reg_t::cmp` is declared in the header and defined
elsewhere. By section 4.3 of the spec: two numbers are compared numerically (raw
magnitude when unsigned, sign-extended otherwise); two pointers into the same
segment are compared by offset; for any other pair the later-version specialized
comparison is tried first, and when it gives no verdict the workaround service
decides or IncompatibleComparison is reported. A pointer against a number is
"normally" an error: the header declares the predicate
`pointerComparisonWithInteger` for this case, and where it holds the pointer operand
is taken as the greater one before the workaround service is asked. The result is
positive, zero or negative as the header documents. -/
def cmp (ver : Nat) (env : Services) (a right : reg_t) (treatAsUnsigned : Bool) :
    Except Error Int :=
  if isNumber ver a && isNumber ver right then
    if treatAsUnsigned then
      Except.ok ((toUint16 ver a : Int) - (toUint16 ver right : Int))
    else
      Except.ok (toSint16 ver a - toSint16 ver right)
  else if isPointer ver a && isPointer ver right
      && getSegment ver a == getSegment ver right then
    Except.ok ((getOffset ver a : Int) - (getOffset ver right : Int))
  else
    match env.sci32Comparison a right with
    | some verdict => Except.ok verdict
    | none =>
      if env.pointerComparisonWithInteger a right then
        Except.ok 1
      else if env.pointerComparisonWithInteger right a then
        Except.ok (-1)
      else
        match lookForWorkaround env OperationKind.comparison
            Error.IncompatibleComparison a right with
        | Except.ok verdict => Except.ok (toSint16 ver verdict)
        | Except.error e => Except.error e

/-- The member `reg_t::operator>`: a sign test on `cmp(right, false)`. -/
def operator_gt (ver : Nat) (env : Services) (a right : reg_t) : Except Error Bool :=
  (cmp ver env a right false).map fun c => decide (c > 0)

/-- The member `reg_t::operator>=`. -/
def operator_ge (ver : Nat) (env : Services) (a right : reg_t) : Except Error Bool :=
  (cmp ver env a right false).map fun c => decide (c ≥ 0)

/-- The member `reg_t::operator<`. -/
def operator_lt (ver : Nat) (env : Services) (a right : reg_t) : Except Error Bool :=
  (cmp ver env a right false).map fun c => decide (c < 0)

/-- The member `reg_t::operator<=`. -/
def operator_le (ver : Nat) (env : Services) (a right : reg_t) : Except Error Bool :=
  (cmp ver env a right false).map fun c => decide (c ≤ 0)

/-- The member `reg_t::gtU`: a sign test on `cmp(right, true)`. -/
def gtU (ver : Nat) (env : Services) (a right : reg_t) : Except Error Bool :=
  (cmp ver env a right true).map fun c => decide (c > 0)

/-- The member `reg_t::geU`. -/
def geU (ver : Nat) (env : Services) (a right : reg_t) : Except Error Bool :=
  (cmp ver env a right true).map fun c => decide (c ≥ 0)

/-- The member `reg_t::ltU`. -/
def ltU (ver : Nat) (env : Services) (a right : reg_t) : Except Error Bool :=
  (cmp ver env a right true).map fun c => decide (c < 0)

/-- The member `reg_t::leU`. -/
def leU (ver : Nat) (env : Services) (a right : reg_t) : Except Error Bool :=
  (cmp ver env a right true).map fun c => decide (c ≤ 0)

/-- Modelled from the spec: `reg_t::operator+` is declared in the header and defined
elsewhere. By section 4.4 of the spec: the sum of two numbers is a number that wraps
modulo 65536; pointer plus number is the pointer with its offset shifted; any other
pair is a type mismatch unless a workaround applies. -/
def operator_add (ver : Nat) (env : Services) (a right : reg_t) : Except Error reg_t :=
  if isNumber ver a && isNumber ver right then
    Except.ok (make_reg ver 0 ((toUint16 ver a + toUint16 ver right) % 65536))
  else if isPointer ver a && isNumber ver right then
    Except.ok (incOffset ver a (toSint16 ver right))
  else
    lookForWorkaround env OperationKind.addition Error.TypeMismatch a right

/-- Modelled from the spec: `reg_t::requireUint16` is declared in the header and
defined elsewhere. By the spec it is `toUint16`, except that a pointer is a
TypeMismatch unless a workaround applies. -/
def requireUint16 (ver : Nat) (env : Services) (r : reg_t) : Except Error Nat :=
  if isPointer ver r then
    match lookForWorkaround env OperationKind.requireUnsigned Error.TypeMismatch
        r NULL_REG with
    | Except.ok verdict => Except.ok (toUint16 ver verdict)
    | Except.error e => Except.error e
  else
    Except.ok (toUint16 ver r)

/-- Modelled from the spec: `reg_t::requireSint16`, the signed sibling of
`requireUint16`. -/
def requireSint16 (ver : Nat) (env : Services) (r : reg_t) : Except Error Int :=
  if isPointer ver r then
    match lookForWorkaround env OperationKind.requireSigned Error.TypeMismatch
        r NULL_REG with
    | Except.ok verdict => Except.ok (toSint16 ver verdict)
    | Except.error e => Except.error e
  else
    Except.ok (toSint16 ver r)

/-- The reading of an accessor value as the spec words it: inspecting a register
whose segment is the uninitialized sentinel reports UninitializedRead, and any other
register yields the value. -/
def spec_checkedRead {α : Type} (ver : Nat) (r : reg_t) (value : α) : Except Error α :=
  if getSegment ver r = kUninitializedSegment then
    Except.error Error.UninitializedRead
  else
    Except.ok value

/-- The services with no registered workaround, no specialized comparison and no
tolerated comparison of a pointer with an integer. -/
def noServices : Services :=
  { context := 0, lookup := fun _ _ _ _ => none, sci32Comparison := fun _ _ => none,
    pointerComparisonWithInteger := fun _ _ => false }

/-! ## Bit-level lemmas -/

/-- Masking with a run of `n` ones that starts at bit `k` keeps bits
`k .. k + n - 1` in place. -/
theorem land_shifted_ones (x k n : Nat) :
    x &&& ((2 ^ n - 1) <<< k) = ((x >>> k) % 2 ^ n) <<< k := by
  apply Nat.eq_of_testBit_eq
  intro i
  simp only [Nat.testBit_and, Nat.testBit_shiftLeft, Nat.testBit_two_pow_sub_one,
    Nat.testBit_mod_two_pow, Nat.testBit_shiftRight]
  by_cases h : i ≥ k
  · have e : k + (i - k) = i := by omega
    rw [e]
    cases x.testBit i <;> simp
  · simp [h]

/-- The mask `0xC000` selects bits 14 and 15. -/
theorem land_C000 (x : Nat) : x &&& 0xC000 = (x / 16384 % 4) * 16384 := by
  have h := land_shifted_ones x 14 2
  simp only [Nat.shiftLeft_eq, Nat.shiftRight_eq_div_pow] at h
  norm_num at h
  exact h

/-- The mask `0x30000` selects bits 16 and 17. -/
theorem land_30000 (x : Nat) : x &&& 0x30000 = (x / 65536 % 4) * 65536 := by
  have h := land_shifted_ones x 16 2
  simp only [Nat.shiftLeft_eq, Nat.shiftRight_eq_div_pow] at h
  norm_num at h
  exact h

/-- The mask `0x3FFF` keeps the low 14 bits. -/
theorem land_3FFF (x : Nat) : x &&& 0x3FFF = x % 16384 :=
  Nat.and_pow_two_sub_one_eq_mod x 14

/-- The mask `0xFFFF` keeps the low 16 bits. -/
theorem land_FFFF (x : Nat) : x &&& 0xFFFF = x % 65536 :=
  Nat.and_pow_two_sub_one_eq_mod x 16

/-- Two high bits placed at bits 16 and 17 do not meet a 16-bit value. -/
theorem lor_high16 (a b : Nat) (hb : b < 65536) : (a * 65536) ||| b = a * 65536 + b := by
  have h := @Nat.mul_add_lt_is_or 16 b (by norm_num; exact hb) a
  norm_num at h
  rw [Nat.mul_comm a 65536]
  exact h.symm

/-- Two high bits placed at bits 14 and 15 do not meet a 14-bit value. -/
theorem lor_high14 (a b : Nat) (hb : b < 16384) : (a * 16384) ||| b = a * 16384 + b := by
  have h := @Nat.mul_add_lt_is_or 14 b (by norm_num; exact hb) a
  norm_num at h
  rw [Nat.mul_comm a 16384]
  exact h.symm

/-! ## The two encodings in arithmetic form -/

/-- Under the classic encoding `getOffset` is the stored offset field. -/
theorem getOffset_classic (ver : Nat) (r : reg_t) (hv : ver < SCI_VERSION_3) :
    getOffset ver r = r._offset := by
  simp [getOffset, hv]

/-- Under the extended encoding `getOffset` is the stored offset field with bits 14
and 15 of the stored segment field on top of it. -/
theorem getOffset_extended (ver : Nat) (r : reg_t) (hv : SCI_VERSION_3 ≤ ver)
    (hr : r.wf) :
    getOffset ver r = (r._segment / 16384) * 65536 + r._offset := by
  obtain ⟨hs, ho⟩ := hr
  have hnv : ¬ ver < SCI_VERSION_3 := Nat.not_lt.mpr hv
  simp only [getOffset, hnv, if_false, land_C000, Nat.shiftLeft_eq]
  have e : r._segment / 16384 % 4 * 16384 * 2 ^ 2 = (r._segment / 16384) * 65536 := by
    omega
  rw [e, lor_high16 _ _ ho]
  omega

/-- Under the classic encoding `setOffset` narrows the offset into the offset field
and keeps the segment field. -/
theorem setOffset_classic (ver : Nat) (r : reg_t) (o : Nat) (hv : ver < SCI_VERSION_3) :
    setOffset ver r o = { _segment := r._segment, _offset := o % 65536 } := by
  simp [setOffset, hv]

/-- Under the extended encoding `setOffset` writes the low 16 bits of the offset into
the offset field and bits 16 and 17 of the offset over bits 14 and 15 of the segment
field. -/
theorem setOffset_extended (ver : Nat) (r : reg_t) (o : Nat) (hv : SCI_VERSION_3 ≤ ver) :
    setOffset ver r o =
      { _segment := (o / 65536 % 4) * 16384 + r._segment % 16384,
        _offset := o % 65536 } := by
  have hnv : ¬ ver < SCI_VERSION_3 := Nat.not_lt.mpr hv
  simp only [setOffset, hnv, if_false, land_30000, land_3FFF, land_FFFF,
    Nat.shiftRight_eq_div_pow]
  have e : o / 65536 % 4 * 65536 / 2 ^ 2 = (o / 65536 % 4) * 16384 := by omega
  have hlt : r._segment % 16384 < 16384 := Nat.mod_lt _ (by norm_num)
  rw [e, lor_high14 _ _ hlt]
  congr 1
  · omega
  · omega

/-- Under either encoding `setOffset` yields a well-formed register. -/
theorem setOffset_wf (ver : Nat) (r : reg_t) (o : Nat) (hr : r.wf) :
    (setOffset ver r o).wf := by
  obtain ⟨hs, ho⟩ := hr
  by_cases hv : ver < SCI_VERSION_3
  · rw [setOffset_classic ver r o hv]
    exact ⟨hs, Nat.mod_lt _ (by norm_num)⟩
  · rw [setOffset_extended ver r o (Nat.not_lt.mp hv)]
    refine ⟨?_, Nat.mod_lt _ (by norm_num)⟩
    show o / 65536 % 4 * 16384 + r._segment % 16384 < 65536
    omega

/-- Under the extended encoding `setOffset` yields a well-formed register, whatever
the register it starts from. -/
theorem setOffset_extended_wf (ver : Nat) (r : reg_t) (o : Nat)
    (hv : SCI_VERSION_3 ≤ ver) : (setOffset ver r o).wf := by
  rw [setOffset_extended ver r o hv]
  refine ⟨?_, Nat.mod_lt _ (by norm_num)⟩
  show o / 65536 % 4 * 16384 + r._segment % 16384 < 65536
  omega

/-- Reading the offset back after a write under the extended encoding keeps the low
18 bits of what was written. -/
theorem getOffset_setOffset_extended (ver : Nat) (r : reg_t) (o : Nat)
    (hv : SCI_VERSION_3 ≤ ver) :
    getOffset ver (setOffset ver r o) = o % 262144 := by
  rw [getOffset_extended ver _ hv (setOffset_extended_wf ver r o hv),
    setOffset_extended ver r o hv]
  show (o / 65536 % 4 * 16384 + r._segment % 16384) / 16384 * 65536 + o % 65536 = o % 262144
  omega

/-- A bitwise or is zero exactly when both operands are zero. -/
theorem lor_eq_zero (a b : Nat) : a ||| b = 0 ↔ a = 0 ∧ b = 0 := by
  constructor
  · intro h
    have hbits : ∀ i, (a.testBit i || b.testBit i) = false := by
      intro i
      rw [← Nat.testBit_or, h]
      exact Nat.zero_testBit i
    constructor
    · apply Nat.zero_of_testBit_eq_false
      intro i
      have := hbits i
      cases hA : a.testBit i <;> simp_all
    · apply Nat.zero_of_testBit_eq_false
      intro i
      have := hbits i
      cases hB : b.testBit i <;> simp_all
  · rintro ⟨rfl, rfl⟩
    rfl

/-! ## The claims on the offset encoding -/

/-- C1: under the extended encoding (version at least `SCI_VERSION_3`), writing back
the offset that was just read, `r.setOffset(r.getOffset())`, leaves both stored
fields of every register unchanged. -/
theorem setOffset_getOffset_roundtrip (ver : Nat) (r : reg_t)
    (hv : SCI_VERSION_3 ≤ ver) (hr : r.wf) :
    setOffset ver r (getOffset ver r) = r := by
  rw [getOffset_extended ver r hv hr, setOffset_extended ver _ _ hv]
  obtain ⟨hs, ho⟩ := hr
  cases r with
  | mk seg off =>
    simp only [reg_t.mk.injEq] at hs ho ⊢
    constructor
    · omega
    · omega

/-- The round trip of C1 at the register with stored fields `0xC005` and `0xFFFF`
under version 13. -/
theorem setOffset_getOffset_roundtrip_witness :
    SCI_VERSION_3 ≤ 13 ∧ (reg_t.mk 0xC005 0xFFFF).wf ∧
      setOffset 13 (reg_t.mk 0xC005 0xFFFF) (getOffset 13 (reg_t.mk 0xC005 0xFFFF))
        = reg_t.mk 0xC005 0xFFFF :=
  ⟨by decide, by decide,
    setOffset_getOffset_roundtrip 13 (reg_t.mk 0xC005 0xFFFF) (by decide) (by decide)⟩

/-- C2 as stated fails: under the extended encoding the register with segment 5
loses the 19-bit offset `0x40000`, which lies within `kOffsetMask`; reading it back
gives 0. -/
theorem getOffset_setOffset_19bit_lost :
    SCI_VERSION_3 ≤ 13 ∧ (reg_t.mk 5 0).wf ∧ getSegment 13 (reg_t.mk 5 0) = 5 ∧
      0x40000 ≤ kOffsetMask ∧
      getOffset 13 (setOffset 13 (reg_t.mk 5 0) 0x40000) = 0 ∧
      getOffset 13 (setOffset 13 (reg_t.mk 5 0) 0x40000) ≠ 0x40000 := by
  refine ⟨by decide, by decide, by decide, by decide, by decide, by decide⟩

/-- C2, amended: under the extended encoding, for every register (whatever its
segment) and every offset `o` of at most 18 bits (`o ≤ 0x3FFFF`), `setOffset(o)`
followed by `getOffset()` returns exactly `o`. -/
theorem getOffset_setOffset_18bit (ver : Nat) (r : reg_t) (o : Nat)
    (hv : SCI_VERSION_3 ≤ ver) (ho : o ≤ 0x3FFFF) :
    getOffset ver (setOffset ver r o) = o := by
  rw [getOffset_setOffset_extended ver r o hv]
  omega

/-- The amended C2 at segment 5 and the largest 18-bit offset under version 13. -/
theorem getOffset_setOffset_18bit_witness :
    SCI_VERSION_3 ≤ 13 ∧ 0x3FFFF ≤ 0x3FFFF ∧
      getOffset 13 (setOffset 13 (reg_t.mk 5 0) 0x3FFFF) = 0x3FFFF :=
  ⟨by decide, by decide,
    getOffset_setOffset_18bit 13 (reg_t.mk 5 0) 0x3FFFF (by decide) (by decide)⟩

/-- C3: under the extended encoding `getOffset()` is
`((storedSegment & 0xC000) << 2) | storedOffset` in 32-bit unsigned arithmetic; bit
`i` of the result is bit `i` of the stored offset field for `i < 16`, bit `i - 2` of
the stored segment field for `i = 16, 17`, and clear above. -/
theorem getOffset_extended_bits (ver : Nat) (r : reg_t)
    (hv : SCI_VERSION_3 ≤ ver) (hr : r.wf) :
    getOffset ver r = (((r._segment &&& 0xC000) <<< 2) ||| r._offset) % 4294967296 ∧
      getOffset ver r % 65536 = r._offset ∧
      getOffset ver r / 65536 = r._segment / 16384 ∧
      ∀ i, (getOffset ver r).testBit i =
        if i < 16 then r._offset.testBit i
        else if i < 18 then r._segment.testBit (i - 2)
        else false := by
  have hnv : ¬ ver < SCI_VERSION_3 := Nat.not_lt.mpr hv
  have harith := getOffset_extended ver r hv hr
  obtain ⟨hs, ho⟩ := hr
  refine ⟨by simp [getOffset, hnv], by omega, by omega, ?_⟩
  intro i
  have hform : getOffset ver r = 2 ^ 16 * (r._segment >>> 14) + r._offset := by
    rw [harith, Nat.shiftRight_eq_div_pow]
    norm_num
    exact Nat.mul_comm _ _
  have ho16 : r._offset < 2 ^ 16 := by norm_num; exact ho
  rw [hform, Nat.testBit_mul_pow_two_add _ ho16, Nat.testBit_shiftRight]
  by_cases h16 : i < 16
  · simp [h16]
  · simp only [h16, if_false]
    have e : 14 + (i - 16) = i - 2 := by omega
    rw [e]
    by_cases h18 : i < 18
    · simp [h18]
    · simp only [h18, if_false]
      apply Nat.testBit_lt_two_pow
      have hpow : 2 ^ 16 ≤ 2 ^ (i - 2) := Nat.pow_le_pow_right (by norm_num) (by omega)
      have hs16 : r._segment < 2 ^ 16 := by norm_num; exact hs
      exact Nat.lt_of_lt_of_le hs16 hpow

/-- The composition of C3 at the register with stored fields `0x8005` and `0xFFFF`
under version 13: the logical offset is `0x2FFFF`. -/
theorem getOffset_extended_bits_witness :
    SCI_VERSION_3 ≤ 13 ∧ (reg_t.mk 0x8005 0xFFFF).wf ∧
      getOffset 13 (reg_t.mk 0x8005 0xFFFF) % 65536 = 0xFFFF ∧
      getOffset 13 (reg_t.mk 0x8005 0xFFFF) / 65536 = 0x8005 / 16384 :=
  ⟨by decide, by decide,
    (getOffset_extended_bits 13 (reg_t.mk 0x8005 0xFFFF) (by decide) (by decide)).2.1,
    (getOffset_extended_bits 13 (reg_t.mk 0x8005 0xFFFF) (by decide) (by decide)).2.2.1⟩

/-- C4: under the extended encoding `setOffset(o)` stores `o & 0xFFFF` in the offset
field, stores bits 16 and 17 of `o` in bits 14 and 15 of the segment field, and
leaves the low 14 bits (`0x3FFF`) of the segment field as they were. -/
theorem setOffset_extended_split (ver : Nat) (r : reg_t) (o : Nat)
    (hv : SCI_VERSION_3 ≤ ver) :
    (setOffset ver r o)._offset = o &&& 0xFFFF ∧
      (setOffset ver r o)._segment &&& 0xC000 = (o &&& 0x30000) >>> 2 ∧
      (setOffset ver r o)._segment / 16384 = o / 65536 % 4 ∧
      (setOffset ver r o)._segment &&& 0x3FFF = r._segment &&& 0x3FFF ∧
      (setOffset ver r o).wf := by
  have hwf := setOffset_extended_wf ver r o hv
  rw [setOffset_extended ver r o hv] at hwf ⊢
  simp only [land_C000, land_30000, land_3FFF, land_FFFF, Nat.shiftRight_eq_div_pow]
  refine ⟨trivial, ?_, ?_, ?_, hwf⟩
  · omega
  · omega
  · omega

/-- The split of C4 at the register with stored fields `0x4005` and `0x1234` and the
offset `0x2FFFF` under version 13. -/
theorem setOffset_extended_split_witness :
    SCI_VERSION_3 ≤ 13 ∧
      (setOffset 13 (reg_t.mk 0x4005 0x1234) 0x2FFFF)._offset = 0x2FFFF &&& 0xFFFF ∧
      (setOffset 13 (reg_t.mk 0x4005 0x1234) 0x2FFFF)._segment &&& 0x3FFF
        = 0x4005 &&& 0x3FFF :=
  ⟨by decide,
    (setOffset_extended_split 13 (reg_t.mk 0x4005 0x1234) 0x2FFFF (by decide)).1,
    (setOffset_extended_split 13 (reg_t.mk 0x4005 0x1234) 0x2FFFF (by decide)).2.2.2.1⟩

/-- C5: under the classic encoding (version below `SCI_VERSION_3`) `getOffset()`
returns the stored offset field unmodified, and `setOffset(o)` stores `o mod 65536`
in the offset field and leaves the stored segment field unchanged. -/
theorem classic_offset_verbatim (ver : Nat) (r : reg_t) (o : Nat)
    (hv : ver < SCI_VERSION_3) :
    getOffset ver r = r._offset ∧
      (setOffset ver r o)._offset = o % 65536 ∧
      (setOffset ver r o)._segment = r._segment := by
  rw [setOffset_classic ver r o hv]
  exact ⟨getOffset_classic ver r hv, rfl, rfl⟩

/-- The classic behaviour of C5 at the register with stored fields `0xC007` and
`0x1234` and the offset `0x12345` under version 8. -/
theorem classic_offset_verbatim_witness :
    8 < SCI_VERSION_3 ∧
      getOffset 8 (reg_t.mk 0xC007 0x1234) = 0x1234 ∧
      (setOffset 8 (reg_t.mk 0xC007 0x1234) 0x12345)._offset = 0x12345 % 65536 ∧
      (setOffset 8 (reg_t.mk 0xC007 0x1234) 0x12345)._segment = 0xC007 :=
  ⟨by decide, classic_offset_verbatim 8 (reg_t.mk 0xC007 0x1234) 0x12345 (by decide)⟩

/-- C6: under the extended encoding, writing the 18-bit offset `0x2FFFF` into any
register makes `getOffset()` return exactly `0x2FFFF`; the offset field holds
`0xFFFF` and the borrowed bits of the segment field hold `0x8000`. -/
theorem setOffset_2FFFF_extended (ver : Nat) (r : reg_t) (hv : SCI_VERSION_3 ≤ ver) :
    getOffset ver (setOffset ver r 0x2FFFF) = 0x2FFFF ∧
      (setOffset ver r 0x2FFFF)._offset = 0xFFFF ∧
      (setOffset ver r 0x2FFFF)._segment &&& 0xC000 = 0x8000 := by
  refine ⟨?_, ?_, ?_⟩
  · rw [getOffset_setOffset_extended ver r _ hv]
  · rw [setOffset_extended ver r _ hv]
  · rw [setOffset_extended ver r _ hv, land_C000]
    show (0x2FFFF / 65536 % 4 * 16384 + r._segment % 16384) / 16384 % 4 * 16384 = 0x8000
    omega

/-- The scenario of C6 at the register with stored fields `0x4005` and `0x1234`
under version 13. -/
theorem setOffset_2FFFF_extended_witness :
    SCI_VERSION_3 ≤ 13 ∧
      getOffset 13 (setOffset 13 (reg_t.mk 0x4005 0x1234) 0x2FFFF) = 0x2FFFF ∧
      (setOffset 13 (reg_t.mk 0x4005 0x1234) 0x2FFFF)._offset = 0xFFFF ∧
      (setOffset 13 (reg_t.mk 0x4005 0x1234) 0x2FFFF)._segment &&& 0xC000 = 0x8000 :=
  ⟨by decide, setOffset_2FFFF_extended 13 (reg_t.mk 0x4005 0x1234) (by decide)⟩

/-- C7: under the extended encoding `getSegment()` is the stored segment field with
the two borrowed high bits masked off, and for every register and every offset `o`
its value after `setOffset(o)` equals its value before. -/
theorem getSegment_setOffset_extended (ver : Nat) (r : reg_t) (o : Nat)
    (hv : SCI_VERSION_3 ≤ ver) :
    getSegment ver r = r._segment &&& 0x3FFF ∧
      getSegment ver r &&& 0xC000 = 0 ∧
      getSegment ver (setOffset ver r o) = getSegment ver r := by
  have hnv : ¬ ver < SCI_VERSION_3 := Nat.not_lt.mpr hv
  rw [setOffset_extended ver r o hv]
  simp only [getSegment, hnv, if_false, land_3FFF, land_C000]
  refine ⟨trivial, ?_, ?_⟩
  · omega
  · omega

/-- The scenario of C7 at segment 5 and the offset `0x2FFFF` under version 13: the
logical segment is still 5. -/
theorem getSegment_setOffset_extended_witness :
    SCI_VERSION_3 ≤ 13 ∧
      getSegment 13 (setOffset 13 (reg_t.mk 5 0) 0x2FFFF) = getSegment 13 (reg_t.mk 5 0) :=
  ⟨by decide,
    (getSegment_setOffset_extended 13 (reg_t.mk 5 0) 0x2FFFF (by decide)).2.2⟩

/-! ## The claims on the predicates and on equality -/

/-- C8: under either encoding `isNull()` is true exactly when the logical segment is
0 and the logical offset is 0; no other (segment, offset) pair is null. -/
theorem isNull_iff (ver : Nat) (r : reg_t) :
    isNull ver r = true ↔ getSegment ver r = 0 ∧ getOffset ver r = 0 := by
  simp only [isNull, beq_iff_eq, lor_eq_zero]
  exact And.comm

/-- C9: a register with `isInitialized()` true (logical segment different from
`kUninitializedSegment`) satisfies exactly one of `isNumber()` and `isPointer()`,
and no register satisfies both. -/
theorem isNumber_isPointer_partition (ver : Nat) (r : reg_t) :
    (isInitialized ver r = true →
        (isNumber ver r = true ∧ isPointer ver r = false) ∨
        (isNumber ver r = false ∧ isPointer ver r = true)) ∧
      ¬ (isNumber ver r = true ∧ isPointer ver r = true) := by
  simp only [isInitialized, isNumber, isPointer]
  generalize getSegment ver r = s
  by_cases h0 : s = 0
  · subst h0
    simp
  · by_cases hu : s = kUninitializedSegment
    · subst hu
      simp
    · simp [h0, hu]

/-- The partition of C9 at a pointer (segment 5) under version 13 and at a number
(segment 0) under version 8. -/
theorem isNumber_isPointer_partition_witness :
    isInitialized 13 (reg_t.mk 5 10) = true ∧
      ((isNumber 13 (reg_t.mk 5 10) = true ∧ isPointer 13 (reg_t.mk 5 10) = false) ∨
        (isNumber 13 (reg_t.mk 5 10) = false ∧ isPointer 13 (reg_t.mk 5 10) = true)) :=
  ⟨by decide, (isNumber_isPointer_partition 13 (reg_t.mk 5 10)).1 (by decide)⟩

/-- C10: for every pair of registers, `a == b` is true exactly when they have the
same logical segment and the same logical offset, and `a != b` is the negation of
`a == b`; both are total functions of the two registers alone, with no error result
and no workaround lookup. A pointer never equals a number; in particular
`pointer(5,10) != number(10)` is true. -/
theorem operator_eq_iff (ver : Nat) (a b : reg_t) :
    (operator_eq ver a b = true ↔
        getSegment ver a = getSegment ver b ∧ getOffset ver a = getOffset ver b) ∧
      operator_ne ver a b = !operator_eq ver a b ∧
      (isPointer ver a = true → isNumber ver b = true →
        operator_ne ver a b = true ∧ operator_eq ver a b = false) ∧
      operator_ne ver (make_reg ver 5 10) (make_reg ver 0 10) = true ∧
      operator_eq ver (make_reg ver 5 10) (make_reg ver 0 10) = false := by
  have hseg : getSegment ver (make_reg ver 5 10) ≠ getSegment ver (make_reg ver 0 10) := by
    by_cases hv : ver < SCI_VERSION_3
    · simp [make_reg, init, setOffset_classic _ _ _ hv, getSegment, hv]
    · have hge : SCI_VERSION_3 ≤ ver := Nat.not_lt.mp hv
      simp [make_reg, init, setOffset_extended _ _ _ hge, getSegment, hv, land_3FFF]
  refine ⟨?_, ?_, ?_, ?_, ?_⟩
  · simp only [operator_eq, Bool.and_eq_true, beq_iff_eq]
    exact And.comm
  · simp only [operator_eq, operator_ne, bne, Bool.not_and]
  · intro hp hn
    have hb : getSegment ver b = 0 := by simpa [isNumber] using hn
    have ha : getSegment ver a ≠ 0 := by
      intro h0
      simp [isPointer, h0] at hp
    have hne : getSegment ver a ≠ getSegment ver b := by rw [hb]; exact ha
    simp [operator_ne, operator_eq, hne]
  · simp [operator_ne, hseg]
  · simp [operator_eq, hseg]

/-- The mixed comparison of C10 at `pointer(5,10)` and `number(10)` under
version 13. -/
theorem operator_eq_iff_witness :
    isPointer 13 (make_reg 13 5 10) = true ∧ isNumber 13 (make_reg 13 0 10) = true ∧
      operator_ne 13 (make_reg 13 5 10) (make_reg 13 0 10) = true ∧
      operator_eq 13 (make_reg 13 5 10) (make_reg 13 0 10) = false :=
  ⟨by decide, by decide,
    (operator_eq_iff 13 (make_reg 13 5 10) (make_reg 13 0 10)).2.2.1 (by decide) (by decide)⟩

/-! ## Further lemmas on the encodings -/

/-- Under the classic encoding the logical segment is the stored segment field. -/
theorem getSegment_classic (ver : Nat) (r : reg_t) (hv : ver < SCI_VERSION_3) :
    getSegment ver r = r._segment := by
  simp [getSegment, hv]

/-- Under the extended encoding the logical segment is the low 14 bits of the stored
segment field. -/
theorem getSegment_extended (ver : Nat) (r : reg_t) (hv : SCI_VERSION_3 ≤ ver) :
    getSegment ver r = r._segment % 16384 := by
  simp [getSegment, Nat.not_lt.mpr hv, land_3FFF]

/-- For a segment id below `0x4000`, `make_reg` stores the segment id and the 16-bit
offset as they are, under either encoding. -/
theorem make_reg_small (ver : Nat) (s n : Nat) (hs : s < 16384) :
    make_reg ver s n = { _segment := s, _offset := n % 65536 } := by
  by_cases hv : ver < SCI_VERSION_3
  · simp only [make_reg, init, setOffset_classic _ _ _ hv, reg_t.mk.injEq]
    constructor <;> omega
  · have hge := Nat.not_lt.mp hv
    simp only [make_reg, init, setOffset_extended _ _ _ hge, reg_t.mk.injEq]
    constructor <;> omega

/-- The logical segment of a register whose stored segment is below `0x4000`. -/
theorem getSegment_small (ver : Nat) (s m : Nat) (hs : s < 16384) :
    getSegment ver { _segment := s, _offset := m } = s := by
  by_cases hv : ver < SCI_VERSION_3
  · rw [getSegment_classic _ _ hv]
  · rw [getSegment_extended _ _ (Nat.not_lt.mp hv)]
    exact Nat.mod_eq_of_lt hs

/-- The logical offset of a register whose stored segment is below `0x4000`. -/
theorem getOffset_small (ver : Nat) (s m : Nat) (hs : s < 16384) (hm : m < 65536) :
    getOffset ver { _segment := s, _offset := m } = m := by
  by_cases hv : ver < SCI_VERSION_3
  · rw [getOffset_classic _ _ hv]
  · rw [getOffset_extended _ _ (Nat.not_lt.mp hv) ⟨by show s < 65536; omega, hm⟩]
    show s / 16384 * 65536 + m = m
    omega

/-- A pointer is not a number. -/
theorem isPointer_not_isNumber (ver : Nat) (r : reg_t) (hp : isPointer ver r = true) :
    isNumber ver r = false := by
  simp only [isPointer, Bool.and_eq_true, bne_iff_ne, ne_eq] at hp
  simp [isNumber, hp.1]

/-- A number is not a pointer. -/
theorem isNumber_not_isPointer (ver : Nat) (r : reg_t) (hn : isNumber ver r = true) :
    isPointer ver r = false := by
  cases h : isPointer ver r
  · rfl
  · rw [isPointer_not_isNumber ver r h] at hn
    exact absurd hn (by decide)

/-- Under the classic encoding `incOffset` only moves the offset field. -/
theorem incOffset_classic (ver : Nat) (r : reg_t) (d : Int) (hv : ver < SCI_VERSION_3) :
    incOffset ver r d =
      { _segment := r._segment,
        _offset := (((r._offset : Int) + d) % 4294967296).toNat % 65536 } := by
  unfold incOffset
  rw [getOffset_classic ver r hv, setOffset_classic ver r _ hv]

/-- Under the extended encoding `incOffset` moves the 18-bit offset spread over the
two fields. -/
theorem incOffset_extended (ver : Nat) (r : reg_t) (d : Int) (hv : SCI_VERSION_3 ≤ ver)
    (hr : r.wf) :
    incOffset ver r d =
      { _segment :=
          ((((r._segment / 16384 * 65536 + r._offset : Nat) : Int) + d) % 4294967296).toNat
            / 65536 % 4 * 16384 + r._segment % 16384,
        _offset :=
          ((((r._segment / 16384 * 65536 + r._offset : Nat) : Int) + d) % 4294967296).toNat
            % 65536 } := by
  unfold incOffset
  rw [getOffset_extended ver r hv hr, setOffset_extended ver r _ hv]

/-- The register left by `incOffset` is well formed. -/
theorem incOffset_wf (ver : Nat) (r : reg_t) (d : Int) (hr : r.wf) :
    (incOffset ver r d).wf :=
  setOffset_wf ver r _ hr

/-- Two well-formed registers with the same logical segment and the same logical
offset have the same stored fields. -/
theorem logical_fields_injective (ver : Nat) (a b : reg_t) (ha : a.wf) (hb : b.wf)
    (hseg : getSegment ver a = getSegment ver b)
    (hoff : getOffset ver a = getOffset ver b) : a = b := by
  obtain ⟨has, hao⟩ := ha
  obtain ⟨hbs, hbo⟩ := hb
  by_cases hv : ver < SCI_VERSION_3
  · rw [getSegment_classic ver a hv, getSegment_classic ver b hv] at hseg
    rw [getOffset_classic ver a hv, getOffset_classic ver b hv] at hoff
    cases a; cases b
    simp only [reg_t.mk.injEq] at *
    exact ⟨hseg, hoff⟩
  · have hge := Nat.not_lt.mp hv
    rw [getSegment_extended ver a hge, getSegment_extended ver b hge] at hseg
    rw [getOffset_extended ver a hge ⟨has, hao⟩, getOffset_extended ver b hge ⟨hbs, hbo⟩]
      at hoff
    cases a; cases b
    simp only [reg_t.mk.injEq] at *
    constructor <;> omega

/-! ## The claims on narrowing, arithmetic and comparison -/

/-- C11: `toUint16()` is the logical offset narrowed to 16 bits, which under both
encodings is the stored offset field, and `toSint16()` is the two's-complement
reading of the same 16 bits: it lies in [-32768, 32767] and is congruent to
`toUint16()` modulo 65536. -/
theorem toUint16_toSint16_narrow (ver : Nat) (r : reg_t) (hr : r.wf) :
    toUint16 ver r = getOffset ver r % 65536 ∧
      toUint16 ver r = r._offset ∧
      -32768 ≤ toSint16 ver r ∧ toSint16 ver r ≤ 32767 ∧
      toSint16 ver r % 65536 = (toUint16 ver r : Int) := by
  have hoff : getOffset ver r % 65536 = r._offset := by
    by_cases hv : ver < SCI_VERSION_3
    · rw [getOffset_classic ver r hv]
      exact Nat.mod_eq_of_lt hr.2
    · rw [getOffset_extended ver r (Nat.not_lt.mp hv) hr]
      have := hr.2
      omega
  refine ⟨rfl, hoff, ?_, ?_, ?_⟩
  · unfold toSint16
    split <;> omega
  · unfold toSint16
    split <;> omega
  · unfold toSint16 toUint16
    split <;> omega

/-- The narrowing of C11 at the register with stored fields `0x8005` and `0xFFFE`
under version 13: unsigned 65534, signed -2. -/
theorem toUint16_toSint16_narrow_witness :
    (reg_t.mk 0x8005 0xFFFE).wf ∧
      toUint16 13 (reg_t.mk 0x8005 0xFFFE) = 0xFFFE ∧
      toSint16 13 (reg_t.mk 0x8005 0xFFFE) = -2 ∧
      toSint16 13 (reg_t.mk 0x8005 0xFFFE) % 65536
        = (toUint16 13 (reg_t.mk 0x8005 0xFFFE) : Int) :=
  ⟨by decide,
    (toUint16_toSint16_narrow 13 (reg_t.mk 0x8005 0xFFFE) (by decide)).2.1,
    by decide,
    (toUint16_toSint16_narrow 13 (reg_t.mk 0x8005 0xFFFE) (by decide)).2.2.2.2⟩

/-- C12: for all numbers `a`, `b` in [0, 65535], `number(a) + number(b)` is
`number((a + b) mod 65536)`: a numeric register (segment 0) whose offset is the sum
wrapped modulo 65536. -/
theorem operator_add_numbers (ver : Nat) (env : Services) (a b : Nat)
    (ha : a ≤ 65535) (hb : b ≤ 65535) :
    operator_add ver env (make_reg ver 0 a) (make_reg ver 0 b)
        = Except.ok (make_reg ver 0 ((a + b) % 65536)) ∧
      isNumber ver (make_reg ver 0 ((a + b) % 65536)) = true ∧
      getOffset ver (make_reg ver 0 ((a + b) % 65536)) = (a + b) % 65536 := by
  have ea : a % 65536 = a := Nat.mod_eq_of_lt (by omega)
  have eb : b % 65536 = b := Nat.mod_eq_of_lt (by omega)
  have hlt : ∀ n : Nat, n % 65536 < 65536 := fun n => Nat.mod_lt _ (by norm_num)
  have hz : (0 : Nat) < 16384 := by norm_num
  have sa : getSegment ver (make_reg ver 0 a) = 0 := by
    rw [make_reg_small ver 0 _ hz, getSegment_small ver 0 _ hz]
  have sb : getSegment ver (make_reg ver 0 b) = 0 := by
    rw [make_reg_small ver 0 _ hz, getSegment_small ver 0 _ hz]
  have fa : getOffset ver (make_reg ver 0 a) = a := by
    rw [make_reg_small ver 0 _ hz, getOffset_small ver 0 _ hz (hlt _), ea]
  have fb : getOffset ver (make_reg ver 0 b) = b := by
    rw [make_reg_small ver 0 _ hz, getOffset_small ver 0 _ hz (hlt _), eb]
  refine ⟨?_, ?_, ?_⟩
  · simp only [operator_add, isNumber, toUint16, sa, sb, fa, fb, ea, eb]
    simp
  · simp [isNumber, make_reg_small ver 0 _ hz, getSegment_small ver 0 _ hz]
  · rw [make_reg_small ver 0 _ hz, getOffset_small ver 0 _ hz (hlt _)]
    omega

/-- The wrapping sum of C12 at `number(65535) + number(2)` under version 8 with no
workaround registered: the result is `number(1)`. -/
theorem operator_add_numbers_witness :
    65535 ≤ 65535 ∧ 2 ≤ 65535 ∧
      operator_add 8 noServices (make_reg 8 0 65535) (make_reg 8 0 2)
        = Except.ok (make_reg 8 0 ((65535 + 2) % 65536)) ∧
      getOffset 8 (make_reg 8 0 ((65535 + 2) % 65536)) = 1 :=
  ⟨by decide, by decide,
    (operator_add_numbers 8 noServices 65535 2 (by decide) (by decide)).1,
    by decide⟩

/-- C13: `requireUint16` returns `toUint16()` for every numeric register, so
`requireUint16(number(42))` returns 42, and reports TypeMismatch for every pointer
register for which no workaround applies, so `requireUint16(pointer(1,0))` reports
TypeMismatch. -/
theorem requireUint16_contract (ver : Nat) (env : Services) (r : reg_t) :
    (isNumber ver r = true → requireUint16 ver env r = Except.ok (toUint16 ver r)) ∧
      (isPointer ver r = true →
        env.lookup env.context OperationKind.requireUnsigned r NULL_REG = none →
        requireUint16 ver env r = Except.error Error.TypeMismatch) ∧
      requireUint16 ver env (make_reg ver 0 42) = Except.ok 42 ∧
      (env.lookup env.context OperationKind.requireUnsigned (make_reg ver 1 0) NULL_REG
          = none →
        requireUint16 ver env (make_reg ver 1 0) = Except.error Error.TypeMismatch) := by
  have hnum : ∀ x, isNumber ver x = true → requireUint16 ver env x
      = Except.ok (toUint16 ver x) := by
    intro x hn
    simp [requireUint16, isNumber_not_isPointer ver x hn]
  have hptr : ∀ x, isPointer ver x = true →
      env.lookup env.context OperationKind.requireUnsigned x NULL_REG = none →
      requireUint16 ver env x = Except.error Error.TypeMismatch := by
    intro x hp hl
    simp [requireUint16, hp, lookForWorkaround, hl]
  refine ⟨hnum r, hptr r, ?_, ?_⟩
  · have h42 : isNumber ver (make_reg ver 0 42) = true := by
      rw [make_reg_small ver 0 42 (by norm_num)]
      simp [isNumber, getSegment_small ver 0 _ (by norm_num)]
    rw [hnum _ h42, make_reg_small ver 0 42 (by norm_num)]
    simp [toUint16, getOffset_small ver 0 (42 % 65536) (by norm_num) (by norm_num)]
  · have h1 : isPointer ver (make_reg ver 1 0) = true := by
      rw [make_reg_small ver 1 0 (by norm_num)]
      simp [isPointer, getSegment_small ver 1 _ (by norm_num), kUninitializedSegment]
    exact hptr _ h1

/-- The two scenarios of C13 under version 8 with no workaround registered. -/
theorem requireUint16_contract_witness :
    isNumber 8 (make_reg 8 0 42) = true ∧
      requireUint16 8 noServices (make_reg 8 0 42) = Except.ok 42 ∧
      isPointer 8 (make_reg 8 1 0) = true ∧
      noServices.lookup noServices.context OperationKind.requireUnsigned
        (make_reg 8 1 0) NULL_REG = none ∧
      requireUint16 8 noServices (make_reg 8 1 0) = Except.error Error.TypeMismatch :=
  ⟨by decide,
    (requireUint16_contract 8 noServices (make_reg 8 0 42)).2.2.1,
    by decide, rfl,
    (requireUint16_contract 8 noServices (make_reg 8 1 0)).2.1 (by decide) rfl⟩

/-- C15 as stated fails: the register with the uninitialized sentinel as segment and
42 as offset is read without any error; `getOffset`, `toUint16` and `toSint16`
return 42 and `isNull` returns false, where the spec wording asks for
UninitializedRead. -/
theorem uninitialized_read_returns_value :
    getSegment 8 (reg_t.mk 0x1FFF 42) = kUninitializedSegment ∧
      getOffset 8 (reg_t.mk 0x1FFF 42) = 42 ∧
      toUint16 8 (reg_t.mk 0x1FFF 42) = 42 ∧
      toSint16 8 (reg_t.mk 0x1FFF 42) = 42 ∧
      isNull 8 (reg_t.mk 0x1FFF 42) = false ∧
      spec_checkedRead 8 (reg_t.mk 0x1FFF 42) (getOffset 8 (reg_t.mk 0x1FFF 42))
        = Except.error Error.UninitializedRead ∧
      (Except.ok (getOffset 8 (reg_t.mk 0x1FFF 42)) : Except Error Nat)
        ≠ spec_checkedRead 8 (reg_t.mk 0x1FFF 42) (getOffset 8 (reg_t.mk 0x1FFF 42)) := by
  refine ⟨by decide, by decide, by decide, by decide, by decide, rfl, ?_⟩
  intro h
  cases h

/-- C15, amended: for every register whose segment is the uninitialized sentinel,
`getOffset`, `toUint16`, `toSint16` and `isNull` report no error and return what the
stored fields decode to (`toUint16` is the stored offset field, `toSint16` its
signed reading, `isNull` is false); only `isInitialized()`, which is false, tells the
caller that the register is uninitialized, and it is neither number nor pointer. -/
theorem uninitialized_read_unchecked (ver : Nat) (r : reg_t) (hr : r.wf)
    (hu : getSegment ver r = kUninitializedSegment) :
    isInitialized ver r = false ∧ isNumber ver r = false ∧ isPointer ver r = false ∧
      isNull ver r = false ∧
      getOffset ver r % 65536 = r._offset ∧
      toUint16 ver r = r._offset ∧
      toSint16 ver r = (if r._offset < 32768 then (r._offset : Int)
        else (r._offset : Int) - 65536) := by
  have hoff : getOffset ver r % 65536 = r._offset := by
    by_cases hv : ver < SCI_VERSION_3
    · rw [getOffset_classic ver r hv]
      exact Nat.mod_eq_of_lt hr.2
    · rw [getOffset_extended ver r (Nat.not_lt.mp hv) hr]
      have := hr.2
      omega
  refine ⟨?_, ?_, ?_, ?_, hoff, hoff, ?_⟩
  · simp [isInitialized, hu]
  · simp [isNumber, hu, kUninitializedSegment]
  · simp [isPointer, hu]
  · have hne : ¬ (getOffset ver r = 0 ∧ getSegment ver r = 0) := by
      rw [hu]
      intro h
      exact absurd h.2 (by decide)
    simpa [isNull, lor_eq_zero] using hne
  · simp only [toSint16, hoff]

/-- The unchecked reads of the amended C15 at the register with stored fields
`0x9FFF` and `0xFFFF` under version 13. -/
theorem uninitialized_read_unchecked_witness :
    (reg_t.mk 0x9FFF 0xFFFF).wf ∧
      getSegment 13 (reg_t.mk 0x9FFF 0xFFFF) = kUninitializedSegment ∧
      isInitialized 13 (reg_t.mk 0x9FFF 0xFFFF) = false ∧
      isNull 13 (reg_t.mk 0x9FFF 0xFFFF) = false ∧
      toUint16 13 (reg_t.mk 0x9FFF 0xFFFF) = 0xFFFF :=
  ⟨by decide, by decide,
    (uninitialized_read_unchecked 13 (reg_t.mk 0x9FFF 0xFFFF) (by decide) (by decide)).1,
    (uninitialized_read_unchecked 13 (reg_t.mk 0x9FFF 0xFFFF)
      (by decide) (by decide)).2.2.2.1,
    (uninitialized_read_unchecked 13 (reg_t.mk 0x9FFF 0xFFFF)
      (by decide) (by decide)).2.2.2.2.2.1⟩

/-- C16: every relational operator is a sign test on the three-way compare: `>`,
`>=`, `<`, `<=` test `cmp(right, false)` and `gtU`, `geU`, `ltU`, `leU` test
`cmp(right, true)`. Hence, for every pair on which `cmp` returns an integer,
`a >= b` is the negation of `a < b`, `a <= b` is the negation of `a > b`, `a < b`
and `a > b` are never both true, and the same holds for the unsigned family. -/
theorem relational_sign_tests (ver : Nat) (env : Services) (a b : reg_t) (c cu : Int)
    (hc : cmp ver env a b false = Except.ok c)
    (hcu : cmp ver env a b true = Except.ok cu) :
    (operator_gt ver env a b = Except.ok (decide (c > 0)) ∧
        operator_ge ver env a b = Except.ok (decide (c ≥ 0)) ∧
        operator_lt ver env a b = Except.ok (decide (c < 0)) ∧
        operator_le ver env a b = Except.ok (decide (c ≤ 0))) ∧
      (gtU ver env a b = Except.ok (decide (cu > 0)) ∧
        geU ver env a b = Except.ok (decide (cu ≥ 0)) ∧
        ltU ver env a b = Except.ok (decide (cu < 0)) ∧
        leU ver env a b = Except.ok (decide (cu ≤ 0))) ∧
      (operator_ge ver env a b = (operator_lt ver env a b).map not ∧
        operator_le ver env a b = (operator_gt ver env a b).map not ∧
        ¬ (operator_lt ver env a b = Except.ok true ∧
            operator_gt ver env a b = Except.ok true)) ∧
      (geU ver env a b = (ltU ver env a b).map not ∧
        leU ver env a b = (gtU ver env a b).map not ∧
        ¬ (ltU ver env a b = Except.ok true ∧ gtU ver env a b = Except.ok true)) := by
  simp only [operator_gt, operator_ge, operator_lt, operator_le, gtU, geU, ltU, leU,
    hc, hcu, Except.map, Except.ok.injEq, decide_eq_true_eq, true_and, and_self]
  refine ⟨⟨?_, ?_, ?_⟩, ?_, ?_, ?_⟩
  · by_cases h : c < 0
    · simp [h]
    · simp [h]
      omega
  · by_cases h : 0 < c
    · simp [h]
    · simp [h]
      omega
  · omega
  · by_cases h : cu < 0
    · simp [h]
    · simp [h]
      omega
  · by_cases h : 0 < cu
    · simp [h]
    · simp [h]
      omega
  · omega

/-- The sign tests of C16 at `number(65535)` against `number(3)` under version 8:
signed, -1 is below 3; unsigned, 65535 is above 3. -/
theorem relational_sign_tests_witness :
    cmp 8 noServices (make_reg 8 0 65535) (make_reg 8 0 3) false = Except.ok (-4) ∧
      cmp 8 noServices (make_reg 8 0 65535) (make_reg 8 0 3) true = Except.ok 65532 ∧
      operator_lt 8 noServices (make_reg 8 0 65535) (make_reg 8 0 3)
        = Except.ok (decide ((-4 : Int) < 0)) ∧
      gtU 8 noServices (make_reg 8 0 65535) (make_reg 8 0 3)
        = Except.ok (decide ((65532 : Int) > 0)) :=
  ⟨rfl, rfl,
    (relational_sign_tests 8 noServices (make_reg 8 0 65535) (make_reg 8 0 3)
      (-4) 65532 (by rfl) (by rfl)).1.2.2.1,
    (relational_sign_tests 8 noServices (make_reg 8 0 65535) (make_reg 8 0 3)
      (-4) 65532 (by rfl) (by rfl)).2.1.1⟩

/-- C17: for every register and every offset `o`, `getOffset()` after `setOffset(o)`
returns `o mod 2^18` under the extended encoding and `o mod 2^16` under the classic
encoding; so a write is read back exactly if and only if `o` fits in 18 bits
(extended) or 16 bits (classic), and the bits above are discarded. -/
theorem getOffset_setOffset_wraps (ver : Nat) (r : reg_t) (o : Nat) :
    getOffset ver (setOffset ver r o)
        = (if ver < SCI_VERSION_3 then o % 65536 else o % 262144) ∧
      (getOffset ver (setOffset ver r o) = o ↔
        o < (if ver < SCI_VERSION_3 then 65536 else 262144)) := by
  by_cases hv : ver < SCI_VERSION_3
  · have h : getOffset ver (setOffset ver r o) = o % 65536 := by
      rw [getOffset_classic ver _ hv, setOffset_classic ver r o hv]
    simp only [hv, if_true, h]
    refine ⟨trivial, ?_⟩
    omega
  · have h := getOffset_setOffset_extended ver r o (Nat.not_lt.mp hv)
    simp only [hv, if_false, h]
    refine ⟨trivial, ?_⟩
    omega

/-- C18: under either encoding, `incOffset(d)` followed by `incOffset(-d)` restores
both stored fields of a register exactly, for every delta `d` (in particular every
`int32` other than `INT32_MIN`, the only one whose negation is not an `int32`), even
when the intermediate offset wraps around; and `incOffset(0)` is the identity. -/
theorem incOffset_neg_restores (ver : Nat) (r : reg_t) (d : Int) (hr : r.wf) :
    incOffset ver (incOffset ver r d) (-d) = r ∧ incOffset ver r 0 = r := by
  have hwf := incOffset_wf ver r d hr
  obtain ⟨hs, ho⟩ := hr
  by_cases hv : ver < SCI_VERSION_3
  · rw [incOffset_classic ver _ _ hv, incOffset_classic ver r d hv,
      incOffset_classic ver r 0 hv]
    cases r with
    | mk seg off =>
      simp only [reg_t.mk.injEq, true_and] at hs ho ⊢
      constructor <;> omega
  · have hge := Nat.not_lt.mp hv
    rw [incOffset_extended ver _ _ hge hwf, incOffset_extended ver r d hge ⟨hs, ho⟩,
      incOffset_extended ver r 0 hge ⟨hs, ho⟩]
    cases r with
    | mk seg off =>
      simp only [reg_t.mk.injEq] at hs ho ⊢
      refine ⟨⟨?_, ?_⟩, ?_, ?_⟩ <;> omega

/-- The round trip of C18 at the register with stored fields `0xC005` and `0xFFFF`
(offset `0x3FFFF`) and the delta 5 under version 13: the offset wraps to 4 and comes
back. -/
theorem incOffset_neg_restores_witness :
    (reg_t.mk 0xC005 0xFFFF).wf ∧
      getOffset 13 (incOffset 13 (reg_t.mk 0xC005 0xFFFF) 5) = 4 ∧
      incOffset 13 (incOffset 13 (reg_t.mk 0xC005 0xFFFF) 5) (-5)
        = reg_t.mk 0xC005 0xFFFF :=
  ⟨by decide, by decide,
    (incOffset_neg_restores 13 (reg_t.mk 0xC005 0xFFFF) 5 (by decide)).1⟩

/-- C19: the two encodings agree on the 16-bit subset: for every register whose
stored segment field is below `0x4000`, `getOffset()` returns the same value under
both encodings, and for every offset `o < 65536`, `setOffset(o)` leaves the same
stored segment and offset fields under both encodings. -/
theorem encodings_agree_16bit (v1 v2 : Nat) (r : reg_t) (o : Nat)
    (h1 : v1 < SCI_VERSION_3) (h2 : SCI_VERSION_3 ≤ v2)
    (hs : r._segment < 0x4000) (hoff : r._offset < 65536) (ho : o < 65536) :
    getOffset v1 r = getOffset v2 r ∧ setOffset v1 r o = setOffset v2 r o := by
  have hr : r.wf := ⟨by omega, hoff⟩
  rw [getOffset_classic v1 r h1, getOffset_extended v2 r h2 hr,
    setOffset_classic v1 r o h1, setOffset_extended v2 r o h2]
  refine ⟨by omega, ?_⟩
  simp only [reg_t.mk.injEq]
  exact ⟨by omega, trivial⟩

/-- The agreement of C19 at the register with stored fields `0x3FFF` and `0x1234` and
the offset `0xABCD`, between versions 8 and 13. -/
theorem encodings_agree_16bit_witness :
    8 < SCI_VERSION_3 ∧ SCI_VERSION_3 ≤ 13 ∧
      getOffset 8 (reg_t.mk 0x3FFF 0x1234) = getOffset 13 (reg_t.mk 0x3FFF 0x1234) ∧
      setOffset 8 (reg_t.mk 0x3FFF 0x1234) 0xABCD
        = setOffset 13 (reg_t.mk 0x3FFF 0x1234) 0xABCD :=
  ⟨by decide, by decide,
    encodings_agree_16bit 8 13 (reg_t.mk 0x3FFF 0x1234) 0xABCD
      (by decide) (by decide) (by decide) (by decide) (by decide)⟩

/-- C20: under either encoding, with `getSegment` the stored segment in classic and
the stored segment masked with `0x3FFF` in extended, the map from the stored fields
to (logical segment, logical offset) is injective: `a == b` holds if and only if the
stored segment fields and the stored offset fields are identical; `==` is reflexive,
symmetric and transitive. -/
theorem operator_eq_stored (ver : Nat) (a b c : reg_t) (ha : a.wf) (hb : b.wf) :
    (operator_eq ver a b = true ↔ a._segment = b._segment ∧ a._offset = b._offset) ∧
      operator_eq ver a a = true ∧
      operator_eq ver a b = operator_eq ver b a ∧
      (operator_eq ver a b = true → operator_eq ver b c = true →
        operator_eq ver a c = true) := by
  refine ⟨?_, ?_, ?_, ?_⟩
  · constructor
    · intro h
      simp only [operator_eq, Bool.and_eq_true, beq_iff_eq] at h
      have hab := logical_fields_injective ver a b ha hb h.2 h.1
      rw [hab]
      exact ⟨rfl, rfl⟩
    · rintro ⟨h1, h2⟩
      have hab : a = b := by
        cases a; cases b
        simp only [reg_t.mk.injEq] at *
        exact ⟨h1, h2⟩
      rw [hab]
      simp [operator_eq]
  · simp [operator_eq]
  · simp only [operator_eq]
    rw [Bool.eq_iff_iff]
    simp only [Bool.and_eq_true, beq_iff_eq]
    constructor <;> rintro ⟨h1, h2⟩ <;> exact ⟨h1.symm, h2.symm⟩
  · simp only [operator_eq, Bool.and_eq_true, beq_iff_eq]
    rintro ⟨h1, h2⟩ ⟨h3, h4⟩
    exact ⟨h1.trans h3, h2.trans h4⟩

/-- The injectivity of C20 at two registers that differ only in a borrowed bit of
the segment field, under version 13: they are not equal. -/
theorem operator_eq_stored_witness :
    (reg_t.mk 0x4005 0x10).wf ∧ (reg_t.mk 0x0005 0x10).wf ∧
      operator_eq 13 (reg_t.mk 0x4005 0x10) (reg_t.mk 0x0005 0x10) = false ∧
      (operator_eq 13 (reg_t.mk 0x4005 0x10) (reg_t.mk 0x0005 0x10) = true ↔
        (reg_t.mk 0x4005 0x10)._segment = (reg_t.mk 0x0005 0x10)._segment ∧
        (reg_t.mk 0x4005 0x10)._offset = (reg_t.mk 0x0005 0x10)._offset) :=
  ⟨by decide, by decide, by decide,
    (operator_eq_stored 13 (reg_t.mk 0x4005 0x10) (reg_t.mk 0x0005 0x10)
      (reg_t.mk 0x0005 0x10) (by decide) (by decide)).1⟩

end Sci
